import Mathlib

/-!
Verification of the greenhouse monitoring core (`src/model.py`): the
k-means clustering engine, the condition classifier and the plant range
matcher.  Numeric values are modelled with exact rationals; the square
root taken by `euclidean_distance` is recovered in the theorems through
`Real.sqrt`, since the program only ever compares distances.
-/

namespace Greenhouse

/-- One observation row of the DataFrame: columns `temperature`,
`light_level`, `moisture` in that order (model.py lines 59-66). -/
structure Point where
  temperature : ℚ
  light : ℚ
  moisture : ℚ
deriving DecidableEq, Repr

instance : Inhabited Point := ⟨⟨0, 0, 0⟩⟩

/-- Sum of squared componentwise differences over the three columns.
`euclidean_distance` (model.py line 90) returns the square root of this
quantity; the program only compares such distances, and the square root
is reintroduced in the theorems via `Real.sqrt`. -/
def dist2 (p q : Point) : ℚ :=
  (p.temperature - q.temperature) ^ 2 + (p.light - q.light) ^ 2 +
    (p.moisture - q.moisture) ^ 2

/-- Python `min(distances)` over a nonempty list (model.py line 103); the
`[]` case never arises in a guarded call (Python raises `ValueError`). -/
def listMin : List ℚ → ℚ
  | [] => 0
  | [d] => d
  | d :: e :: ds => min d (listMin (e :: ds))

/-- Python `list.index(x)`: position of the first occurrence of `x`
(model.py line 103); for an absent element Python raises `ValueError`,
the callers here always pass a member. -/
def firstIdx (x : ℚ) : List ℚ → ℕ
  | [] => 0
  | d :: ds => if d = x then 0 else firstIdx x ds + 1

/-- `distances.index(min(distances))` (model.py line 103). -/
def argminIdx (ds : List ℚ) : ℕ :=
  firstIdx (listMin ds) ds

/-- Cluster index chosen for a point (model.py lines 102-103).  The source
compares the square roots of `dist2`; since squaring is an order
isomorphism on nonnegative reals, the first index of minimal squared
distance coincides with the first index of minimal distance. -/
def assignIndex (centroids : List Point) (p : Point) : ℕ :=
  argminIdx (centroids.map (fun c => dist2 p c))

/-- Assignment step (model.py lines 98-104): `clusters[j]` collects, in
increasing order, the indices of the points whose nearest centroid (first
minimum) is centroid `j`. -/
def assignStep (points : List Point) (centroids : List Point) : List (List ℕ) :=
  (List.range centroids.length).map (fun j =>
    (List.range points.length).filter
      (fun i => assignIndex centroids (points.getD i default) = j))

/-- Componentwise mean `df.iloc[cluster].mean().values` (model.py line 110);
only called on nonempty clusters. -/
def clusterMean (points : List Point) (cluster : List ℕ) : Point :=
  let sel := cluster.map (fun i => points.getD i default)
  { temperature := (sel.map Point.temperature).sum / (sel.length : ℚ)
  , light := (sel.map Point.light).sum / (sel.length : ℚ)
  , moisture := (sel.map Point.moisture).sum / (sel.length : ℚ) }

/-- Update step (model.py lines 107-112): a nonempty cluster gets the mean
of its points, an empty cluster keeps the old centroid at the same
position (`centroids[len(new_centroids)]`).  In the program both lists
always have length `k`, so the truncating zip is exact. -/
def updateStep (points : List Point) : List (List ℕ) → List Point → List Point
  | [], _ => []
  | _ :: _, [] => []
  | cl :: cls, c :: cs =>
    (if cl = [] then c else clusterMean points cl) :: updateStep points cls cs

/-- Main loop of `kmeans_clustering` (model.py lines 97-117), one call per
iteration; `fuel` counts the iterations still allowed after the current
one, so `fuel = max_iterations - 1` at the first call.  The `Bool`
records which exit was taken: `true` for the centroid-equality break,
`false` for running out of iterations. -/
def kmeansLoop (points : List Point) (fuel : ℕ) (centroids : List Point) :
    List (List ℕ) × List Point × Bool :=
  let clusters := assignStep points centroids
  let newCentroids := updateStep points clusters centroids
  if newCentroids = centroids then (clusters, centroids, true)
  else
    match fuel with
    | 0 => (clusters, newCentroids, false)
    | f + 1 => kmeansLoop points f newCentroids

/-- Failures observable from `kmeans_clustering` and its caller. -/
inductive ClusterError
  | invalidInput
  | valueError
  | nameError
deriving DecidableEq, Repr

/-- `kmeans_clustering` (model.py lines 93-119) with the random initial
centroids passed explicitly (`init` stands for the `k` draws of
`df.iloc[random.randint(0, len(df)-1)]`, sampling with replacement).
With `max_iterations = 0` the loop body never runs and the final
`return clusters` hits an unbound name (`nameError`); with no centroids
and a nonempty dataset the first `min(distances)` is `min([])`
(`valueError`).  Note the source performs no validation of `k` itself. -/
def kmeansRun (points : List Point) (init : List Point) (maxIter : ℕ) :
    Except ClusterError (List (List ℕ) × List Point × Bool) :=
  if maxIter = 0 then .error .nameError
  else if init = [] ∧ points ≠ [] then .error .valueError
  else .ok (kmeansLoop points (maxIter - 1) init)

/-- Rows of the DataFrame built from the three data files
(model.py lines 59-66). -/
def mkPoints (temps lights moists : List ℚ) : List Point :=
  List.zipWith (fun t lm => Point.mk t lm.1 lm.2) temps (List.zip lights moists)

/-- Module-level guard plus clustering call (model.py lines 55-57 and 122):
when any of the three data columns does not hold exactly 25 values the
program reports an error and the entire `else` block -- including all
clustering -- is skipped; this rejection is modelled as `invalidInput`. -/
def pipelineCluster (temps lights moists : List ℚ) (init : List Point) (maxIter : ℕ) :
    Except ClusterError (List (List ℕ) × List Point × Bool) :=
  if temps.length ≠ 25 ∨ moists.length ≠ 25 ∨ lights.length ≠ 25 then .error .invalidInput
  else kmeansRun (mkPoints temps lights moists) init maxIter

/-- Condition labelling of one row (model.py lines 136-146).  The source
tests `euclidean_distance(point, centroid) <= optimal_threshold`, that is
`sqrt (dist2 p c) <= threshold`; since `sqrt` is nonnegative this holds
exactly when `0 ≤ threshold ∧ dist2 p c ≤ threshold ^ 2`, which is the
square-root-free form used here (equivalence proved below). -/
def conditionLabel (p : Point) (clusterIdx : ℕ) (centroids : List Point)
    (threshold : ℚ) : String :=
  if 0 ≤ threshold ∧ dist2 p (centroids.getD clusterIdx default) ≤ threshold ^ 2 then
    "Optimal"
  else "Non-optimal"

/-- Python `str.split(sep)` for a one-character separator, on strings
modelled as lists of characters: `"abc"` stays whole, `"a-b"` becomes two
pieces, a leading/trailing/doubled separator yields empty pieces. -/
def splitOnChar (sep : Char) : List Char → List (List Char)
  | [] => [[]]
  | c :: cs =>
    if c = sep then [] :: splitOnChar sep cs
    else
      match splitOnChar sep cs with
      | [] => [[c]]
      | r :: rs => (c :: r) :: rs

/-- Digit-string part of Python `int`: one or more decimal digits.
(Python also strips whitespace and accepts underscores; those never occur
in pieces of the range table, and never in `"abc"`.) -/
def parseNat (cs : List Char) : Option ℕ :=
  if cs = [] then none
  else if cs.all Char.isDigit then
    some (cs.foldl (fun acc c => acc * 10 + (c.toNat - 48)) 0)
  else none

/-- Python `int(s)`: optional sign followed by digits, `ValueError`
(modelled `none`) otherwise. -/
def parseInt (cs : List Char) : Option ℤ :=
  match cs with
  | '-' :: rest => (parseNat rest).map (fun n => -(n : ℤ))
  | '+' :: rest => (parseNat rest).map (fun n => (n : ℤ))
  | rest => (parseNat rest).map (fun n => (n : ℤ))

/-- `convert_range_to_tuple` (model.py lines 40-47): replace the en dash
by a hyphen, split on the hyphen, and convert both parts with `int`.
Any `ValueError` -- wrong number of parts after the unpacking
`start, end = ...split('-')`, or a part that is not an integer literal --
is caught and `None` is returned; `none` models that failure return.
Strings are modelled as lists of characters. -/
def convertRangeToTuple (s : List Char) : Option (ℤ × ℤ) :=
  match splitOnChar '-' (s.map (fun c => if c = '–' then '-' else c)) with
  | [a, b] =>
    match parseInt a, parseInt b with
    | some x, some y => some (x, y)
    | _, _ => none
  | _ => none

/-- Per-species penalty accumulation (model.py lines 191-197): `distance`
starts at 0 and, for moisture, light and temperature in that order, when
the median fails the chained comparison `min <= median <= max` the term
`abs(median - (min + max) / 2)` is added. -/
def plantScore (mo li te : ℤ × ℤ) (medMoist medLight medTemp : ℚ) : ℚ :=
  let d0 : ℚ := 0
  let d1 := if ¬((mo.1 : ℚ) ≤ medMoist ∧ medMoist ≤ (mo.2 : ℚ)) then
      d0 + |medMoist - ((mo.1 : ℚ) + (mo.2 : ℚ)) / 2| else d0
  let d2 := if ¬((li.1 : ℚ) ≤ medLight ∧ medLight ≤ (li.2 : ℚ)) then
      d1 + |medLight - ((li.1 : ℚ) + (li.2 : ℚ)) / 2| else d1
  let d3 := if ¬((te.1 : ℚ) ≤ medTemp ∧ medTemp ≤ (te.2 : ℚ)) then
      d2 + |medTemp - ((te.1 : ℚ) + (te.2 : ℚ)) / 2| else d2
  d3

/-- Contribution of one dimension to the penalty, in the source's
phrasing of the test (helper for reasoning about `plantScore`). -/
def dimPen (r : ℤ × ℤ) (m : ℚ) : ℚ :=
  if (r.1 : ℚ) ≤ m ∧ m ≤ (r.2 : ℚ) then 0 else |m - ((r.1 : ℚ) + (r.2 : ℚ)) / 2|

/-- Modelled from the spec's wording of per-species scoring: the sum over
the three dimensions of `|median - midpoint|` for each dimension whose
median lies strictly outside the inclusive range, and 0 for a dimension
whose median lies inside. -/
def specPenalty (mo li te : ℤ × ℤ) (medMoist medLight medTemp : ℚ) : ℚ :=
  (if medMoist < (mo.1 : ℚ) ∨ (mo.2 : ℚ) < medMoist then
    |medMoist - ((mo.1 : ℚ) + (mo.2 : ℚ)) / 2| else 0) +
  (if medLight < (li.1 : ℚ) ∨ (li.2 : ℚ) < medLight then
    |medLight - ((li.1 : ℚ) + (li.2 : ℚ)) / 2| else 0) +
  (if medTemp < (te.1 : ℚ) ∨ (te.2 : ℚ) < medTemp then
    |medTemp - ((te.1 : ℚ) + (te.2 : ℚ)) / 2| else 0)

/-- The raw range strings stored for one species by `load_plant_database`
(model.py lines 29-33), as lists of characters. -/
structure PlantRanges where
  moisture : List Char
  light : List Char
  temperature : List Char
deriving DecidableEq, Repr

/-- Failures observable from the best-plant selection. -/
inductive MatchError
  | emptyDatabase
  | typeError
deriving DecidableEq, Repr

/-- Score of one database entry (model.py lines 186-197): the three range
strings are parsed inside the loop; when a parse fails the source's
`convert_range_to_tuple` returns `None` and the subsequent subscript
raises `TypeError`, modelled by `none`. -/
def plantScoreOfRanges (r : PlantRanges) (medMoist medLight medTemp : ℚ) : Option ℚ :=
  match convertRangeToTuple r.moisture, convertRangeToTuple r.light,
      convertRangeToTuple r.temperature with
  | some mo, some li, some te => some (plantScore mo li te medMoist medLight medTemp)
  | _, _, _ => none

/-- The selection loop (model.py lines 181-202): `best` carries
`(best_plant, best_distance)`, with `none` standing for the initial
`None` / `float('inf')` pair, so the first scored entry always replaces
it and afterwards only a strictly smaller score does. -/
def bestPlantLoop (medMoist medLight medTemp : ℚ) :
    List (String × PlantRanges) → Option (String × ℚ) →
      Except MatchError (Option (String × ℚ))
  | [], best => .ok best
  | (name, r) :: rest, best =>
    match plantScoreOfRanges r medMoist medLight medTemp with
    | none => .error .typeError
    | some s =>
      match best with
      | none => bestPlantLoop medMoist medLight medTemp rest (some (name, s))
      | some (bn, bd) =>
        if s < bd then bestPlantLoop medMoist medLight medTemp rest (some (name, s))
        else bestPlantLoop medMoist medLight medTemp rest (some (bn, bd))

/-- Best-plant recommendation (model.py lines 181-205).  An empty database
leaves `best_plant = None`, on which the program fails at
`best_plant.capitalize()` (line 205) -- and is independently reported by
the `if not plant_db` guard at line 71; both surface the empty-database
condition as `emptyDatabase`. -/
def bestPlant (db : List (String × PlantRanges)) (medMoist medLight medTemp : ℚ) :
    Except MatchError (String × ℚ) :=
  match bestPlantLoop medMoist medLight medTemp db none with
  | .error e => .error e
  | .ok none => .error .emptyDatabase
  | .ok (some r) => .ok r

/-! Helper lemmas about `listMin`, `firstIdx` and `List.getD`. -/

theorem listMin_le : ∀ {ds : List ℚ} {x : ℚ}, x ∈ ds → listMin ds ≤ x
  | [], _, hx => absurd hx (List.not_mem_nil _)
  | [d], x, hx => by
    rcases List.mem_singleton.mp hx with rfl
    exact le_refl _
  | d :: e :: ds, x, hx => by
    rcases List.mem_cons.mp hx with rfl | hx
    · exact min_le_left _ _
    · exact le_trans (min_le_right _ _) (listMin_le hx)

theorem listMin_mem : ∀ {ds : List ℚ}, ds ≠ [] → listMin ds ∈ ds
  | [], h => absurd rfl h
  | [_], _ => List.mem_singleton.mpr rfl
  | d :: e :: ds, _ => by
    rcases le_total d (listMin (e :: ds)) with h | h
    · rw [listMin, min_eq_left h]
      exact List.mem_cons_self _ _
    · rw [listMin, min_eq_right h]
      exact List.mem_cons_of_mem _ (listMin_mem (by simp))

theorem firstIdx_lt {x : ℚ} : ∀ {ds : List ℚ}, x ∈ ds → firstIdx x ds < ds.length
  | [], hx => absurd hx (List.not_mem_nil _)
  | d :: ds, hx => by
    by_cases h : d = x
    · simp [firstIdx, h]
    · have hx' : x ∈ ds := by
        rcases List.mem_cons.mp hx with rfl | hx'
        · exact absurd rfl h
        · exact hx'
      simpa [firstIdx, h] using Nat.succ_lt_succ (firstIdx_lt hx')

theorem firstIdx_getD {x : ℚ} : ∀ {ds : List ℚ}, x ∈ ds → ds.getD (firstIdx x ds) 0 = x
  | [], hx => absurd hx (List.not_mem_nil _)
  | d :: ds, hx => by
    by_cases h : d = x
    · simp [firstIdx, h]
    · have hx' : x ∈ ds := by
        rcases List.mem_cons.mp hx with rfl | hx'
        · exact absurd rfl h
        · exact hx'
      simpa [firstIdx, h] using firstIdx_getD hx'

theorem firstIdx_before {x : ℚ} : ∀ {ds : List ℚ} {i : ℕ},
    i < firstIdx x ds → ds.getD i 0 ≠ x
  | [], i, h => by simp [firstIdx] at h
  | d :: ds, i, h => by
    by_cases hd : d = x
    · simp [firstIdx, hd] at h
    · cases i with
      | zero => simpa using hd
      | succ i =>
        have hi : i < firstIdx x ds := by
          have := h
          simp only [firstIdx, hd, if_false] at this
          omega
        simpa using firstIdx_before hi

theorem getD_mem_of_lt : ∀ {ds : List ℚ} {i : ℕ}, i < ds.length → ds.getD i 0 ∈ ds
  | [], _, h => absurd h (by simp)
  | d :: ds, 0, _ => List.mem_cons_self _ _
  | d :: ds, i + 1, h =>
    List.mem_cons_of_mem _ (getD_mem_of_lt (Nat.lt_of_succ_lt_succ h))

theorem getD_map {α β : Type} (f : α → β) (da : α) (db : β) :
    ∀ (l : List α) (i : ℕ), i < l.length → (l.map f).getD i db = f (l.getD i da)
  | [], _, h => absurd h (by simp)
  | _ :: _, 0, _ => rfl
  | _ :: l, i + 1, h => by
    simpa using getD_map f da db l i (Nat.lt_of_succ_lt_succ h)

/-- First-minimum characterisation of `argminIdx`: the chosen index is in
range, its value is a global minimum, and every earlier index holds a
strictly larger value. -/
theorem argminIdx_spec (ds : List ℚ) (hds : ds ≠ []) :
    argminIdx ds < ds.length ∧
    (∀ i, i < ds.length → ds.getD (argminIdx ds) 0 ≤ ds.getD i 0) ∧
    (∀ i, i < argminIdx ds → ds.getD (argminIdx ds) 0 < ds.getD i 0) := by
  have hmem := listMin_mem hds
  have hlt : argminIdx ds < ds.length := firstIdx_lt hmem
  have hval : ds.getD (argminIdx ds) 0 = listMin ds := firstIdx_getD hmem
  refine ⟨hlt, ?_, ?_⟩
  · intro i hi
    rw [hval]
    exact listMin_le (getD_mem_of_lt hi)
  · intro i hi
    rw [hval]
    have hne : ds.getD i 0 ≠ listMin ds := firstIdx_before hi
    have hle : listMin ds ≤ ds.getD i 0 :=
      listMin_le (getD_mem_of_lt (lt_trans hi hlt))
    exact lt_of_le_of_ne hle (Ne.symm hne)

/-! Helper lemmas about the penalty computation. -/

theorem plantScore_eq_dimPen (mo li te : ℤ × ℤ) (medMoist medLight medTemp : ℚ) :
    plantScore mo li te medMoist medLight medTemp =
      dimPen mo medMoist + dimPen li medLight + dimPen te medTemp := by
  simp only [plantScore, dimPen]
  split_ifs <;> ring

theorem dimPen_nonneg (r : ℤ × ℤ) (m : ℚ) : 0 ≤ dimPen r m := by
  unfold dimPen
  split_ifs
  · exact le_refl 0
  · exact abs_nonneg _

/-- Widening a range symmetrically keeps the midpoint, so the dimension's
contribution can only drop to 0 (median newly inside) or stay equal. -/
theorem dimPen_symm_widen (r : ℤ × ℤ) (d : ℤ) (hd : 0 ≤ d) (m : ℚ) :
    dimPen (r.1 - d, r.2 + d) m ≤ dimPen r m := by
  have hd' : (0 : ℚ) ≤ (d : ℚ) := by exact_mod_cast hd
  unfold dimPen
  by_cases h2 : (r.1 : ℚ) ≤ m ∧ m ≤ (r.2 : ℚ)
  · have h1 : (((r.1 - d, r.2 + d) : ℤ × ℤ).1 : ℚ) ≤ m ∧
        m ≤ (((r.1 - d, r.2 + d) : ℤ × ℤ).2 : ℚ) := by
      constructor
      · push_cast
        linarith [h2.1]
      · push_cast
        linarith [h2.2]
    rw [if_pos h1, if_pos h2]
  · rw [if_neg h2]
    by_cases h1 : (((r.1 - d, r.2 + d) : ℤ × ℤ).1 : ℚ) ≤ m ∧
        m ≤ (((r.1 - d, r.2 + d) : ℤ × ℤ).2 : ℚ)
    · rw [if_pos h1]
      exact abs_nonneg _
    · rw [if_neg h1]
      have hmid : ((((r.1 - d, r.2 + d) : ℤ × ℤ).1 : ℚ) +
          (((r.1 - d, r.2 + d) : ℤ × ℤ).2 : ℚ)) = (r.1 : ℚ) + (r.2 : ℚ) := by
        push_cast
        ring
      rw [hmid]

/-! Helper lemmas about the clustering loop. -/

theorem assignStep_length (points centroids : List Point) :
    (assignStep points centroids).length = centroids.length := by
  simp [assignStep]

theorem updateStep_length (points : List Point) :
    ∀ (cls : List (List ℕ)) (cs : List Point),
      (updateStep points cls cs).length = min cls.length cs.length
  | [], cs => by simp [updateStep]
  | _ :: _, [] => by simp [updateStep]
  | cl :: cls, c :: cs => by
    simp only [updateStep, List.length_cons, updateStep_length points cls cs]
    omega

theorem updateStep_empty_frozen (points : List Point) :
    ∀ (cls : List (List ℕ)) (cs : List Point) (i : ℕ),
      i < cls.length → i < cs.length → cls.getD i [] = [] →
      (updateStep points cls cs).getD i default = cs.getD i default
  | [], _, i, hi, _, _ => absurd hi (by simp)
  | _ :: _, [], i, _, hi, _ => absurd hi (by simp)
  | cl :: cls, c :: cs, 0, _, _, hcl => by
    simp only [List.getD_cons_zero] at hcl
    simp [updateStep, hcl]
  | cl :: cls, c :: cs, i + 1, hi, hi', hcl => by
    simp only [List.getD_cons_succ] at hcl ⊢
    simp only [updateStep]
    exact updateStep_empty_frozen points cls cs i
      (Nat.lt_of_succ_lt_succ hi) (Nat.lt_of_succ_lt_succ hi') hcl

theorem kmeansLoop_centroids_length (points : List Point) :
    ∀ (fuel : ℕ) (centroids : List Point),
      (kmeansLoop points fuel centroids).2.1.length = centroids.length
  | fuel, centroids => by
    rw [kmeansLoop.eq_def]
    simp only
    have hupd : (updateStep points (assignStep points centroids) centroids).length =
        centroids.length := by
      rw [updateStep_length, assignStep_length]
      omega
    split_ifs with h
    · rfl
    · match fuel with
      | 0 => simpa using hupd
      | f + 1 =>
        simpa using (kmeansLoop_centroids_length points f
          (updateStep points (assignStep points centroids) centroids)).trans hupd

/-- On the convergence exit the returned assignment was computed against
exactly the returned centroids. -/
theorem kmeansLoop_converged (points : List Point) :
    ∀ (fuel : ℕ) (centroids cl : _) (c : List Point),
      kmeansLoop points fuel centroids = (cl, c, true) → assignStep points c = cl
  | fuel, centroids, cl, c, h => by
    rw [kmeansLoop.eq_def] at h
    simp only at h
    split_ifs at h with hconv
    · obtain ⟨rfl, rfl, -⟩ : assignStep points centroids = cl ∧ centroids = c ∧ True := by
        simpa using h
      rfl
    · match fuel with
      | 0 => simp at h
      | f + 1 =>
        exact kmeansLoop_converged points f
          (updateStep points (assignStep points centroids) centroids) cl c h

/-- On the iteration-cap exit the returned assignment was computed against
the previous centroids, while the returned centroids come from one more
update step; the two centroid lists differ (otherwise the convergence
break would have fired). -/
theorem kmeansLoop_capped (points : List Point) :
    ∀ (fuel : ℕ) (centroids cl : _) (c : List Point),
      kmeansLoop points fuel centroids = (cl, c, false) →
      ∃ prev, cl = assignStep points prev ∧ c = updateStep points cl prev ∧ c ≠ prev
  | fuel, centroids, cl, c, h => by
    rw [kmeansLoop.eq_def] at h
    simp only at h
    split_ifs at h with hconv
    · simp at h
    · match fuel with
      | 0 =>
        obtain ⟨rfl, rfl, -⟩ : assignStep points centroids = cl ∧
            updateStep points (assignStep points centroids) centroids = c ∧ True := by
          simpa using h
        exact ⟨centroids, rfl, rfl, hconv⟩
      | f + 1 =>
        exact kmeansLoop_capped points f
          (updateStep points (assignStep points centroids) centroids) cl c h

theorem dimPen_eq_spec (r : ℤ × ℤ) (m : ℚ) :
    dimPen r m =
      if m < (r.1 : ℚ) ∨ (r.2 : ℚ) < m then |m - ((r.1 : ℚ) + (r.2 : ℚ)) / 2| else 0 := by
  unfold dimPen
  by_cases h : (r.1 : ℚ) ≤ m ∧ m ≤ (r.2 : ℚ)
  · rw [if_pos h, if_neg]
    rintro (hlt | hlt)
    · exact absurd hlt (not_lt.mpr h.1)
    · exact absurd hlt (not_lt.mpr h.2)
  · have hout : m < (r.1 : ℚ) ∨ (r.2 : ℚ) < m := by
      by_contra hcon
      push_neg at hcon
      exact h ⟨hcon.1, hcon.2⟩
    rw [if_neg h, if_pos hout]

/-- C1: the per-species penalty computed by the best-plant loop equals the
spec's sum over the three dimensions of `|median - (min+max)/2|` for each
dimension whose median lies strictly outside the inclusive range (zero
contribution inside), and a record whose bounds contain all three medians
scores exactly 0. -/
theorem rangeMatcher_penalty_eq_spec (mo li te : ℤ × ℤ)
    (medMoist medLight medTemp : ℚ) :
    plantScore mo li te medMoist medLight medTemp =
      specPenalty mo li te medMoist medLight medTemp ∧
    (((mo.1 : ℚ) ≤ medMoist ∧ medMoist ≤ (mo.2 : ℚ)) →
     ((li.1 : ℚ) ≤ medLight ∧ medLight ≤ (li.2 : ℚ)) →
     ((te.1 : ℚ) ≤ medTemp ∧ medTemp ≤ (te.2 : ℚ)) →
     plantScore mo li te medMoist medLight medTemp = 0) := by
  constructor
  · rw [plantScore_eq_dimPen]
    unfold specPenalty
    rw [dimPen_eq_spec, dimPen_eq_spec, dimPen_eq_spec]
  · intro h1 h2 h3
    rw [plantScore_eq_dimPen]
    unfold dimPen
    rw [if_pos h1, if_pos h2, if_pos h3]
    ring

/-- Witness for C1 at the spec's rose scenario: all three medians inside
the bounds give a zero score. -/
theorem rangeMatcher_penalty_witness :
    plantScore (40, 60) (400, 600) (15, 25) 50 500 20 = 0 :=
  (rangeMatcher_penalty_eq_spec (40, 60) (400, 600) (15, 25) 50 500 20).2
    (by norm_num) (by norm_num) (by norm_num)

/-- C2 counterexample: with medians (moisture 10, light 500,
temperature 20) the moisture range (0,5) misses its median, and widening
it to (-100,5) -- wider on both sides, here only below -- raises the
penalty from 15/2 to 115/2, because the midpoint moves away from the
median. -/
theorem widen_increases_penalty_cex :
    ¬(((0 : ℤ) : ℚ) ≤ 10 ∧ (10 : ℚ) ≤ ((5 : ℤ) : ℚ)) ∧
    (-100 : ℤ) ≤ 0 ∧ (5 : ℤ) ≤ 5 ∧
    plantScore (0, 5) (400, 600) (15, 25) 10 500 20 <
      plantScore (-100, 5) (400, 600) (15, 25) 10 500 20 := by
  refine ⟨by norm_num, by norm_num, le_refl _, ?_⟩
  norm_num [plantScore, abs_of_nonneg]

/-- C2 amended: widening every dimension of a record symmetrically -- by
any nonnegative amount on both ends, which preserves the midpoints --
never increases the penalty; the unrestricted claim is false because an
asymmetric widening can move a midpoint away from the median. -/
theorem widen_symm_no_increase (mo li te : ℤ × ℤ) (dm dl dt : ℤ)
    (hm : 0 ≤ dm) (hl : 0 ≤ dl) (ht : 0 ≤ dt) (medMoist medLight medTemp : ℚ) :
    plantScore (mo.1 - dm, mo.2 + dm) (li.1 - dl, li.2 + dl) (te.1 - dt, te.2 + dt)
        medMoist medLight medTemp ≤
      plantScore mo li te medMoist medLight medTemp := by
  rw [plantScore_eq_dimPen, plantScore_eq_dimPen]
  have h1 := dimPen_symm_widen mo dm hm medMoist
  have h2 := dimPen_symm_widen li dl hl medLight
  have h3 := dimPen_symm_widen te dt ht medTemp
  linarith

/-- Witness for the amended C2 at the rose record, each range widened by
1, 2, 3 respectively. -/
theorem widen_symm_no_increase_witness :
    plantScore ((40 : ℤ) - 1, (60 : ℤ) + 1) ((400 : ℤ) - 2, (600 : ℤ) + 2)
        ((15 : ℤ) - 3, (25 : ℤ) + 3) 50 500 20 ≤
      plantScore (40, 60) (400, 600) (15, 25) 50 500 20 :=
  widen_symm_no_increase (40, 60) (400, 600) (15, 25) 1 2 3
    (by decide) (by decide) (by decide) 50 500 20

/-- C3 counterexample: a valid 25-value dataset with 26 initial centroids
(k = 26 > n = 25) is not rejected: the run returns a normal result, so no
InvalidInput is signalled for k > n. -/
theorem clusterEngine_k_gt_n_cex :
    (List.replicate 26 (default : Point)).length = 26 ∧
    (List.replicate 25 (0 : ℚ)).length = 25 ∧
    (pipelineCluster (List.replicate 25 (0 : ℚ)) (List.replicate 25 (0 : ℚ))
        (List.replicate 25 (0 : ℚ)) (List.replicate 26 (default : Point)) 100).isOk = true := by
  refine ⟨by simp, by simp, ?_⟩
  rw [pipelineCluster, if_neg (by simp), kmeansRun, if_neg (by norm_num),
    if_neg (by simp)]
  rfl

/-- C3 amended: a dataset whose columns are not exactly 25 long (in
particular 24 rows) is rejected before any clustering runs, and reaching
`max_iterations` without convergence is a silent normal return; but
`kmeans_clustering` performs no validation of `k`: any nonempty initial
centroid list, in particular one with k > n entries, yields a normal
result, while k = 0 on a nonempty dataset dies with the `ValueError`
raised by `min([])`, not with an InvalidInput signal. -/
theorem clusterEngine_validation (temps lights moists : List ℚ)
    (points init : List Point) (maxIter : ℕ) :
    (temps.length ≠ 25 ∨ moists.length ≠ 25 ∨ lights.length ≠ 25 →
      pipelineCluster temps lights moists init maxIter = .error .invalidInput) ∧
    (maxIter ≠ 0 → init ≠ [] → (kmeansRun points init maxIter).isOk = true) ∧
    (maxIter ≠ 0 → points ≠ [] → kmeansRun points [] maxIter = .error .valueError) := by
  refine ⟨fun h => ?_, fun hmi hinit => ?_, fun hmi hp => ?_⟩
  · rw [pipelineCluster, if_pos h]
  · rw [kmeansRun, if_neg hmi, if_neg (fun hc => hinit hc.1)]
    rfl
  · rw [kmeansRun, if_neg hmi, if_pos ⟨rfl, hp⟩]

/-- Witness for the amended C3: a 24-value dataset is rejected with
InvalidInput; a 1-point, 1-centroid run returns normally; the k = 0 run
on a nonempty dataset is the ValueError failure. -/
theorem clusterEngine_validation_witness :
    pipelineCluster (List.replicate 24 (0 : ℚ)) (List.replicate 24 (0 : ℚ))
        (List.replicate 24 (0 : ℚ)) [default] 100 = .error .invalidInput ∧
    (kmeansRun [default] [default] 100).isOk = true ∧
    kmeansRun [default] [] 100 = .error .valueError :=
  ⟨(clusterEngine_validation (List.replicate 24 0) (List.replicate 24 0)
      (List.replicate 24 0) [default] [default] 100).1 (by simp),
   (clusterEngine_validation [] [] [] [default] [default] 100).2.1
      (by norm_num) (by simp),
   (clusterEngine_validation [] [] [] [default] [default] 100).2.2
      (by norm_num) (by simp)⟩

/-- Evaluation of a converged run: one point at the origin, one centroid
at the origin; the first iteration assigns the point to cluster 0, the
mean equals the centroid, and the convergence break fires. -/
theorem kmeansRun_single :
    kmeansRun [(⟨0,0,0⟩ : Point)] [(⟨0,0,0⟩ : Point)] 100 =
      .ok ([[0]], [(⟨0,0,0⟩ : Point)], true) := by
  have ha : assignStep [(⟨0,0,0⟩ : Point)] [(⟨0,0,0⟩ : Point)] = [[0]] := by
    simp [assignStep, assignIndex, argminIdx, listMin, firstIdx, List.range_succ]
  have hu : updateStep [(⟨0,0,0⟩ : Point)] [[0]] [(⟨0,0,0⟩ : Point)] =
      [(⟨0,0,0⟩ : Point)] := by
    simp [updateStep, clusterMean]
  rw [kmeansRun, if_neg (by norm_num), if_neg (by simp), kmeansLoop.eq_def]
  simp only
  rw [ha, hu, if_pos rfl]

/-- Evaluation of a capped run: three collinear points, two centroids,
`max_iterations = 1`; the single iteration reassigns and updates but the
new centroids differ from the old, so the loop ends by running out of
iterations. -/
theorem kmeansRun_capped_eval :
    kmeansRun [(⟨0,0,0⟩ : Point), ⟨12/5,0,0⟩, ⟨3,0,0⟩] [⟨2,0,0⟩, ⟨3,0,0⟩] 1 =
      .ok ([[0, 1], [2]], [⟨6/5,0,0⟩, ⟨3,0,0⟩], false) := by
  have ha : assignStep [(⟨0,0,0⟩ : Point), ⟨12/5,0,0⟩, ⟨3,0,0⟩] [⟨2,0,0⟩, ⟨3,0,0⟩] =
      [[0, 1], [2]] := by
    norm_num [assignStep, assignIndex, argminIdx, listMin, firstIdx, dist2, min_def,
      List.range_succ]
  have hu : updateStep [(⟨0,0,0⟩ : Point), ⟨12/5,0,0⟩, ⟨3,0,0⟩] [[0, 1], [2]]
      [⟨2,0,0⟩, ⟨3,0,0⟩] = [⟨6/5,0,0⟩, ⟨3,0,0⟩] := by
    norm_num [updateStep, clusterMean, List.cons_ne_nil]
  rw [kmeansRun, if_neg (by norm_num), if_neg (by simp), kmeansLoop.eq_def]
  simp only
  rw [ha, hu, if_neg (by norm_num [Point.mk.injEq])]

/-- C4: when the engine exits through the centroid-equality convergence
check, one further assignment step against the returned centroids
reproduces exactly the returned cluster assignment. -/
theorem convergence_idempotent (points init : List Point) (maxIter : ℕ)
    (cl : List (List ℕ)) (c : List Point)
    (h : kmeansRun points init maxIter = .ok (cl, c, true)) :
    assignStep points c = cl := by
  rw [kmeansRun] at h
  by_cases h1 : maxIter = 0
  · rw [if_pos h1] at h
    exact absurd h (by simp)
  · rw [if_neg h1] at h
    by_cases h2 : init = [] ∧ points ≠ []
    · rw [if_pos h2] at h
      exact absurd h (by simp)
    · rw [if_neg h2] at h
      exact kmeansLoop_converged points (maxIter - 1) init cl c (by simpa using h)

/-- Witness for C4: the converged one-point run; re-assignment against the
returned centroid reproduces the returned clusters. -/
theorem convergence_idempotent_witness :
    assignStep [(⟨0,0,0⟩ : Point)] [(⟨0,0,0⟩ : Point)] = [[0]] :=
  convergence_idempotent [⟨0,0,0⟩] [⟨0,0,0⟩] 100 [[0]] [⟨0,0,0⟩] kmeansRun_single

/-- C5: a cluster with zero assigned points keeps its centroid unchanged
by the update step (it is not reinitialized and not dropped), and a
completed run returns exactly as many centroids as it was given
initially, i.e. k. -/
theorem empty_cluster_frozen (points : List Point) (cls : List (List ℕ))
    (cs : List Point) (i : ℕ) (init : List Point) (maxIter : ℕ)
    (out : List (List ℕ) × List Point × Bool) :
    (i < cls.length → i < cs.length → cls.getD i [] = [] →
      (updateStep points cls cs).getD i default = cs.getD i default) ∧
    (kmeansRun points init maxIter = .ok out → out.2.1.length = init.length) := by
  constructor
  · exact updateStep_empty_frozen points cls cs i
  · intro h
    rw [kmeansRun] at h
    by_cases h1 : maxIter = 0
    · rw [if_pos h1] at h
      exact absurd h (by simp)
    · rw [if_neg h1] at h
      by_cases h2 : init = [] ∧ points ≠ []
      · rw [if_pos h2] at h
        exact absurd h (by simp)
      · rw [if_neg h2] at h
        have hout : kmeansLoop points (maxIter - 1) init = out := by simpa using h
        rw [← hout]
        exact kmeansLoop_centroids_length points (maxIter - 1) init

/-- Witness for C5: the empty first cluster keeps its stale centroid
(9,9,9), and the converged one-point run returns exactly one centroid. -/
theorem empty_cluster_frozen_witness :
    (updateStep [(⟨1,2,3⟩ : Point), ⟨4,5,6⟩] [[], [0, 1]]
        [⟨9,9,9⟩, ⟨7,7,7⟩]).getD 0 default =
      ([(⟨9,9,9⟩ : Point), ⟨7,7,7⟩]).getD 0 default ∧
    (([[0]], [(⟨0,0,0⟩ : Point)], true) :
        List (List ℕ) × List Point × Bool).2.1.length =
      [(⟨0,0,0⟩ : Point)].length :=
  ⟨(empty_cluster_frozen [⟨1,2,3⟩, ⟨4,5,6⟩] [[], [0, 1]] [⟨9,9,9⟩, ⟨7,7,7⟩] 0 [] 1
      ([], [], true)).1 (by norm_num) (by norm_num) rfl,
   (empty_cluster_frozen [⟨0,0,0⟩] [] [] 0 [⟨0,0,0⟩] 100
      ([[0]], [⟨0,0,0⟩], true)).2 kmeansRun_single⟩

/-- C10: on the iteration-cap exit the returned assignment was computed
against the pre-update centroids while the returned centroids come from
one further update (and differ from those pre-update centroids), so the
returned assignment need not be nearest-centroid for the returned
centroids; the second conjunct is a concrete capped run where
re-assignment against the returned centroids gives a different
assignment. -/
theorem capped_exit_stale_assignment :
    (∀ (points init : List Point) (maxIter : ℕ) (cl : List (List ℕ)) (c : List Point),
      kmeansRun points init maxIter = .ok (cl, c, false) →
      ∃ prev, cl = assignStep points prev ∧ c = updateStep points cl prev ∧ c ≠ prev) ∧
    (kmeansRun [(⟨0,0,0⟩ : Point), ⟨12/5,0,0⟩, ⟨3,0,0⟩] [⟨2,0,0⟩, ⟨3,0,0⟩] 1 =
        .ok ([[0, 1], [2]], [⟨6/5,0,0⟩, ⟨3,0,0⟩], false) ∧
      assignStep [(⟨0,0,0⟩ : Point), ⟨12/5,0,0⟩, ⟨3,0,0⟩] [⟨6/5,0,0⟩, ⟨3,0,0⟩] ≠
        [[0, 1], [2]]) := by
  constructor
  · intro points init maxIter cl c h
    rw [kmeansRun] at h
    by_cases h1 : maxIter = 0
    · rw [if_pos h1] at h
      exact absurd h (by simp)
    · rw [if_neg h1] at h
      by_cases h2 : init = [] ∧ points ≠ []
      · rw [if_pos h2] at h
        exact absurd h (by simp)
      · rw [if_neg h2] at h
        exact kmeansLoop_capped points (maxIter - 1) init cl c (by simpa using h)
  · refine ⟨kmeansRun_capped_eval, ?_⟩
    have hre : assignStep [(⟨0,0,0⟩ : Point), ⟨12/5,0,0⟩, ⟨3,0,0⟩]
        [⟨6/5,0,0⟩, ⟨3,0,0⟩] = [[0], [1, 2]] := by
      norm_num [assignStep, assignIndex, argminIdx, listMin, firstIdx, dist2, min_def,
        List.range_succ]
    rw [hre]
    decide

/-- Witness for the universally quantified part of C10 at the concrete
capped run. -/
theorem capped_exit_stale_witness :
    ∃ prev, [[0, 1], [2]] =
        assignStep [(⟨0,0,0⟩ : Point), ⟨12/5,0,0⟩, ⟨3,0,0⟩] prev ∧
      ([(⟨6/5,0,0⟩ : Point), ⟨3,0,0⟩]) =
        updateStep [(⟨0,0,0⟩ : Point), ⟨12/5,0,0⟩, ⟨3,0,0⟩] [[0, 1], [2]] prev ∧
      ([(⟨6/5,0,0⟩ : Point), ⟨3,0,0⟩]) ≠ prev :=
  capped_exit_stale_assignment.1 [⟨0,0,0⟩, ⟨12/5,0,0⟩, ⟨3,0,0⟩] [⟨2,0,0⟩, ⟨3,0,0⟩] 1
    [[0, 1], [2]] [⟨6/5,0,0⟩, ⟨3,0,0⟩] kmeansRun_capped_eval

theorem dist2_nonneg (p q : Point) : 0 ≤ dist2 p q := by
  unfold dist2
  positivity

theorem getD_range (n i : ℕ) (h : i < n) : (List.range n).getD i 0 = i := by
  rw [List.getD_eq_getElem _ _ (by simpa using h)]
  simp

/-- C6: each point is assigned to a centroid of minimal Euclidean
distance, with ties resolved to the lowest-indexed centroid (every
earlier centroid is strictly farther), and the point's index is collected
into exactly that cluster by the assignment step. -/
theorem assign_nearest_lowest (points centroids : List Point) (p : Point) (j : ℕ)
    (hc : centroids ≠ []) (i : ℕ) (hi : i < points.length)
    (hp : p = points.getD i default) (hj : j = assignIndex centroids p) :
    j < centroids.length ∧
    i ∈ (assignStep points centroids).getD j [] ∧
    (∀ m, m < centroids.length →
      Real.sqrt (dist2 p (centroids.getD j default) : ℝ) ≤
        Real.sqrt (dist2 p (centroids.getD m default) : ℝ)) ∧
    (∀ m, m < j →
      Real.sqrt (dist2 p (centroids.getD j default) : ℝ) <
        Real.sqrt (dist2 p (centroids.getD m default) : ℝ)) := by
  subst hj
  subst hp
  have hds_ne : centroids.map (fun c => dist2 (points.getD i default) c) ≠ [] := by
    simpa using hc
  obtain ⟨h1, h2, h3⟩ :=
    argminIdx_spec (centroids.map (fun c => dist2 (points.getD i default) c)) hds_ne
  rw [List.length_map] at h1
  have hfold : argminIdx (centroids.map (fun c => dist2 (points.getD i default) c)) =
      assignIndex centroids (points.getD i default) := rfl
  rw [hfold] at h1 h2 h3
  have hgetd : ∀ m, m < centroids.length →
      (centroids.map (fun c => dist2 (points.getD i default) c)).getD m 0 =
        dist2 (points.getD i default) (centroids.getD m default) :=
    fun m hm => getD_map (fun c => dist2 (points.getD i default) c) default 0 centroids m hm
  have hj_lt : assignIndex centroids (points.getD i default) < centroids.length := h1
  refine ⟨hj_lt, ?_, ?_, ?_⟩
  · have hstep : (assignStep points centroids).getD
        (assignIndex centroids (points.getD i default)) [] =
        (List.range points.length).filter
          (fun x => assignIndex centroids (points.getD x default) =
            assignIndex centroids (points.getD i default)) := by
      rw [assignStep, getD_map _ 0 [] (List.range centroids.length) _
        (by simpa using hj_lt), getD_range _ _ hj_lt]
    rw [hstep]
    exact List.mem_filter.mpr ⟨List.mem_range.mpr hi, by simp⟩
  · intro m hm
    have hle := h2 m (by simpa using hm)
    rw [hgetd _ hj_lt, hgetd _ hm] at hle
    exact Real.sqrt_le_sqrt (by exact_mod_cast hle)
  · intro m hm
    have hm_lt : m < centroids.length := lt_trans hm hj_lt
    have hlt := h3 m hm
    rw [hgetd _ hj_lt, hgetd _ hm_lt] at hlt
    have h0 : (0 : ℝ) ≤
        (dist2 (points.getD i default)
          (centroids.getD (assignIndex centroids (points.getD i default)) default) : ℝ) := by
      exact_mod_cast dist2_nonneg _ _
    exact Real.sqrt_lt_sqrt h0 (by exact_mod_cast hlt)

/-- Witness for C6: the point at the origin with the two centroids
(1,0,0) and (-1,0,0) equidistant from it is assigned to the
lowest-indexed one, cluster 0. -/
theorem assign_nearest_lowest_witness :
    (0 : ℕ) < ([(⟨1,0,0⟩ : Point), ⟨-1,0,0⟩]).length ∧
    0 ∈ (assignStep [(⟨0,0,0⟩ : Point)] [⟨1,0,0⟩, ⟨-1,0,0⟩]).getD 0 [] ∧
    Real.sqrt (dist2 (⟨0,0,0⟩ : Point)
        (([(⟨1,0,0⟩ : Point), ⟨-1,0,0⟩]).getD 0 default) : ℝ) ≤
      Real.sqrt (dist2 (⟨0,0,0⟩ : Point)
        (([(⟨1,0,0⟩ : Point), ⟨-1,0,0⟩]).getD 1 default) : ℝ) := by
  obtain ⟨h1, h2, h3, -⟩ := assign_nearest_lowest [⟨0,0,0⟩] [⟨1,0,0⟩, ⟨-1,0,0⟩]
    ⟨0,0,0⟩ 0 (by simp) 0 (by norm_num) rfl
    (by norm_num [assignIndex, argminIdx, listMin, firstIdx, dist2, min_def])
  exact ⟨h1, h2, h3 1 (by norm_num)⟩

/-- C7: the classifier labels a point "Optimal" exactly when its
Euclidean distance to the assigned centroid is at most the threshold
(boundary inclusive) and "Non-optimal" exactly otherwise; it is a pure
function of `(point, cluster_id, centroids, threshold)`, so equal inputs
give equal labels by definition. -/
theorem condition_label_iff (p : Point) (clusterIdx : ℕ) (centroids : List Point)
    (threshold : ℚ) :
    (conditionLabel p clusterIdx centroids threshold = "Optimal" ↔
      Real.sqrt (dist2 p (centroids.getD clusterIdx default) : ℝ) ≤ (threshold : ℝ)) ∧
    (conditionLabel p clusterIdx centroids threshold = "Non-optimal" ↔
      ¬ Real.sqrt (dist2 p (centroids.getD clusterIdx default) : ℝ) ≤ (threshold : ℝ)) := by
  have key : (0 ≤ threshold ∧ dist2 p (centroids.getD clusterIdx default) ≤ threshold ^ 2)
      ↔ Real.sqrt (dist2 p (centroids.getD clusterIdx default) : ℝ) ≤ (threshold : ℝ) := by
    constructor
    · rintro ⟨h0, hd⟩
      have h0' : (0 : ℝ) ≤ (threshold : ℝ) := by exact_mod_cast h0
      have hd' : ((dist2 p (centroids.getD clusterIdx default) : ℚ) : ℝ) ≤
          (threshold : ℝ) ^ 2 := by exact_mod_cast hd
      calc Real.sqrt (dist2 p (centroids.getD clusterIdx default) : ℝ)
          ≤ Real.sqrt ((threshold : ℝ) ^ 2) := Real.sqrt_le_sqrt hd'
        _ = (threshold : ℝ) := Real.sqrt_sq h0'
    · intro h
      have hd2 : (0 : ℝ) ≤ (dist2 p (centroids.getD clusterIdx default) : ℝ) := by
        exact_mod_cast dist2_nonneg p _
      have h0' : (0 : ℝ) ≤ (threshold : ℝ) := le_trans (Real.sqrt_nonneg _) h
      refine ⟨by exact_mod_cast h0', ?_⟩
      have hsq : ((dist2 p (centroids.getD clusterIdx default) : ℚ) : ℝ) ≤
          (threshold : ℝ) ^ 2 := by
        calc ((dist2 p (centroids.getD clusterIdx default) : ℚ) : ℝ)
            = Real.sqrt (dist2 p (centroids.getD clusterIdx default) : ℝ) ^ 2 :=
              (Real.sq_sqrt hd2).symm
          _ ≤ (threshold : ℝ) ^ 2 := pow_le_pow_left₀ (Real.sqrt_nonneg _) h 2
      exact_mod_cast hsq
  have hstr : ("Non-optimal" : String) ≠ "Optimal" := by decide
  have hstr2 : ("Optimal" : String) ≠ "Non-optimal" := by decide
  rw [← key]
  unfold conditionLabel
  constructor
  · constructor
    · intro heq
      by_cases hC : 0 ≤ threshold ∧
          dist2 p (centroids.getD clusterIdx default) ≤ threshold ^ 2
      · exact hC
      · rw [if_neg hC] at heq
        exact absurd heq hstr
    · intro hC
      rw [if_pos hC]
  · constructor
    · intro heq hC
      rw [if_pos hC] at heq
      exact absurd heq hstr2
    · intro hC
      rw [if_neg hC]

theorem bestPlantLoop_some (medMoist medLight medTemp : ℚ) :
    ∀ (db : List (String × PlantRanges)) (b : String × ℚ),
      (∀ e ∈ db, (plantScoreOfRanges e.2 medMoist medLight medTemp).isSome = true) →
      ∃ r, bestPlantLoop medMoist medLight medTemp db (some b) = .ok (some r)
  | [], b, _ => ⟨b, rfl⟩
  | (name, pr) :: rest, ⟨bn, bd⟩, h => by
    have hs : (plantScoreOfRanges pr medMoist medLight medTemp).isSome = true :=
      h (name, pr) (List.mem_cons_self _ _)
    obtain ⟨s, hs_eq⟩ := Option.isSome_iff_exists.mp hs
    have hrest : ∀ e ∈ rest,
        (plantScoreOfRanges e.2 medMoist medLight medTemp).isSome = true :=
      fun e he => h e (List.mem_cons_of_mem _ he)
    simp only [bestPlantLoop, hs_eq]
    split_ifs
    · exact bestPlantLoop_some medMoist medLight medTemp rest (name, s) hrest
    · exact bestPlantLoop_some medMoist medLight medTemp rest (bn, bd) hrest

/-- C8: the matcher yields the empty-database failure on a database with
zero entries (the line 71 guard reports it, and the loop would leave
`best_plant = None`, crashing at `best_plant.capitalize()`), and on any
nonempty database whose range strings all parse, every species is scored
and a best match is returned. -/
theorem bestPlant_total (medMoist medLight medTemp : ℚ)
    (db : List (String × PlantRanges)) :
    bestPlant [] medMoist medLight medTemp = .error .emptyDatabase ∧
    (db ≠ [] →
      (∀ e ∈ db, (plantScoreOfRanges e.2 medMoist medLight medTemp).isSome = true) →
      ∃ name score, bestPlant db medMoist medLight medTemp = .ok (name, score)) := by
  refine ⟨rfl, fun hne hall => ?_⟩
  match db, hne with
  | (name, pr) :: rest, _ =>
    have hs : (plantScoreOfRanges pr medMoist medLight medTemp).isSome = true :=
      hall (name, pr) (List.mem_cons_self _ _)
    obtain ⟨s, hs_eq⟩ := Option.isSome_iff_exists.mp hs
    obtain ⟨r, hr⟩ := bestPlantLoop_some medMoist medLight medTemp rest (name, s)
      (fun e he => hall e (List.mem_cons_of_mem _ he))
    refine ⟨r.1, r.2, ?_⟩
    rw [bestPlant]
    simp only [bestPlantLoop, hs_eq]
    rw [hr]

/-- Witness for C8: the empty database errors, and the spec scenario's
two-entry database (rose, cactus) with medians (50, 500, 20) returns a
best match. -/
theorem bestPlant_total_witness :
    bestPlant [] 50 500 20 = .error .emptyDatabase ∧
    (∃ name score,
      bestPlant [("rose", ⟨"40-60".toList, "400-600".toList, "15-25".toList⟩),
        ("cactus", ⟨"10-20".toList, "800-1000".toList, "25-35".toList⟩)] 50 500 20 =
        .ok (name, score)) :=
  ⟨(bestPlant_total 50 500 20 []).1,
   (bestPlant_total 50 500 20
      [("rose", ⟨"40-60".toList, "400-600".toList, "15-25".toList⟩),
       ("cactus", ⟨"10-20".toList, "800-1000".toList, "25-35".toList⟩)]).2
      (by simp) (by decide)⟩

/-- C9: the malformed range string "abc" makes the conversion take the
caught-ValueError path and produce its failure value `None` (modelled
`none`), not any default tuple, while a well-formed range string -- with
either dash -- parses to its integer bounds. -/
theorem convert_range_malformed :
    convertRangeToTuple "abc".toList = none ∧
    convertRangeToTuple "750–900".toList = some (750, 900) ∧
    convertRangeToTuple "40-60".toList = some (40, 60) := by
  refine ⟨by decide, by decide, by decide⟩

end Greenhouse
